import Mathlib

/-!
Shallow embedding of the image binary codec of `python-cvpy`
(`src/cvpy/utils/ImageUtils.py` and
`src/cvpy/biomedimage/BiomedImageTable.py`), together with theorems
settling the claims about it.

Modelling conventions:
* A Python `bytes` buffer is a `List Nat`, one entry per byte
  (entries produced by our encoders are `< 256` by construction).
* `struct.unpack` with `'='` (native byte order) is modelled as
  little-endian, the byte order of the machines the library runs on.
* Python exceptions (`struct.error`, numpy reshape `ValueError`,
  `IndexError`/`KeyError`, `NameError` from an unbound local) are
  modelled with `Except PyError` / `Option`.
* float32/float64 array elements are represented by their raw
  little-endian bit patterns (as `Int`); the codec never performs
  float arithmetic, it only moves element bytes around, so this is
  byte-faithful.
-/

namespace Cvpy

abbrev Bytes := List Nat

/-- Value of a byte list read as a little-endian unsigned integer. -/
def leValue : Bytes → Nat
  | [] => 0
  | b :: bs => b + 256 * leValue bs

/-- The `w` little-endian bytes of `v` (mod `256^w`). -/
def leBytes : Nat → Nat → Bytes
  | 0, _ => []
  | w + 1, v => v % 256 :: leBytes w (v / 256)

/-- Two's-complement reading of a `w`-byte unsigned value. -/
def toSigned (w : Nat) (v : Nat) : Int :=
  if v < 2 ^ (8 * w - 1) then (v : Int) else (v : Int) - 2 ^ (8 * w)

/-- The 8 bytes of an `int64` in little-endian two's complement,
as produced by `numpy.int64.tobytes` on a little-endian machine. -/
def int64le (v : Int) : Bytes := leBytes 8 (v % (2 ^ 64 : Int)).toNat

/-- Split a byte list into `count` chunks of `w` bytes each. -/
def chunkN (w : Nat) : Nat → Bytes → List Bytes
  | 0, _ => []
  | n + 1, bs => bs.take w :: chunkN w n (bs.drop w)

/-- `struct.unpack` of `count` unsigned `w`-byte integers: the buffer
must hold exactly `w * count` bytes, otherwise `struct.error`. -/
def unpackU (w count : Nat) (bs : Bytes) : Option (List Nat) :=
  if bs.length = w * count then some ((chunkN w count bs).map leValue) else none

/-- `struct.unpack` of `count` signed `w`-byte integers. -/
def unpackS (w count : Nat) (bs : Bytes) : Option (List Int) :=
  (unpackU w count bs).map (List.map (toSigned w))

/-- Python-level failures surfaced by the codec. -/
inductive PyError
  | structError   -- struct.error: buffer length does not match the format
  | valueError    -- numpy ValueError: reshape size mismatch
  | indexError    -- IndexError: sequence index out of range
  | keyError      -- KeyError: missing column
  | nameError     -- NameError: local variable never assigned
  deriving Repr, DecidableEq

/-- numpy dtypes occurring in `get_image_array_from_row`. -/
inductive NpDtype
  | int8 | uint8 | int16 | uint16 | int32 | uint64 | float32 | float64
  deriving Repr, DecidableEq

/-- A decoded numpy array: dtype, shape, and the row-major flat data.
Signed dtypes store the signed value; unsigned dtypes store the
non-negative value; float dtypes store the raw bit pattern. -/
structure NdArray where
  dtype : NpDtype
  shape : List Nat
  data : List Int
  deriving Repr, DecidableEq

deriving instance DecidableEq for Except

/-- `ImageUtils.__reverse(a, 2)` applied to the row-major flattening of
an array of shape `(·, ·, 3)` with `n` pixels: element `(i,j,k)` of the
result is element `(i,j,2-k)` of the input, i.e. flat index `t` reads
flat index `3*(t/3) + (2 - t%3)`. -/
def revAxis2 (n : Nat) (flat : List Int) : List Int :=
  (List.range (3 * n)).map fun t => flat.getD (3 * (t / 3) + (2 - t % 3)) 0

/-- `ImageUtils.get_image_array_from_row(image_binary, dimension,
resolution, myformat, channel_count)`: the string-keyed `if/elif`
dispatch of the source, in source order.  `np.prod(resolution)` is
`resolution.prod`; each `struct.unpack` branch slices
`image_binary[0:w*num_cells]` and demands an exact length; the
`np.reshape(..., resolution)` of those branches always succeeds since
the unpacked count equals `resolution.prod`.  The two 3-channel
branches reshape to `(resolution[0], resolution[1], 3)` (an
`IndexError` if `resolution` has fewer than two entries, a
`ValueError` if the byte count differs from `res[0]*res[1]*3`) and
reverse the channel axis. -/
def get_image_array_from_row (image_binary : Bytes) (dimension : Nat)
    (resolution : List Nat) (myformat : String) (channel_count : Nat := 1) :
    Except PyError NdArray :=
  let num_cells := resolution.prod
  if myformat = "32S" then
    match unpackS 4 num_cells (image_binary.take (4 * num_cells)) with
    | some vals => .ok ⟨.int32, resolution, vals⟩
    | none => .error .structError
  else if myformat = "32F" then
    match unpackU 4 num_cells (image_binary.take (4 * num_cells)) with
    | some vals => .ok ⟨.float32, resolution, vals.map Int.ofNat⟩
    | none => .error .structError
  else if myformat = "64F" then
    match unpackU 8 num_cells (image_binary.take (8 * num_cells)) with
    | some vals => .ok ⟨.float64, resolution, vals.map Int.ofNat⟩
    | none => .error .structError
  else if myformat = "64U" then
    match unpackU 8 num_cells (image_binary.take (8 * num_cells)) with
    | some vals => .ok ⟨.uint64, resolution, vals.map Int.ofNat⟩
    | none => .error .structError
  else if myformat = "16S" then
    match unpackS 2 num_cells (image_binary.take (2 * num_cells)) with
    | some vals => .ok ⟨.int16, resolution, vals⟩
    | none => .error .structError
  else if myformat = "16U" then
    match unpackU 2 num_cells (image_binary.take (2 * num_cells)) with
    | some vals => .ok ⟨.uint16, resolution, vals.map Int.ofNat⟩
    | none => .error .structError
  else if myformat = "8U" ∧ channel_count = 3 then
    -- np.array(bytearray(image_binary[0:num_cells*3])): Python slicing
    -- truncates silently, no exact-length requirement here.
    match resolution with
    | r0 :: r1 :: _ =>
      let arr := image_binary.take (3 * num_cells)
      if arr.length = r0 * r1 * 3 then
        .ok ⟨.uint8, [r0, r1, 3], revAxis2 (r0 * r1) (arr.map Int.ofNat)⟩
      else .error .valueError
    | _ => .error .indexError
  else if myformat = "8S" then
    match unpackS 1 num_cells (image_binary.take num_cells) with
    | some vals => .ok ⟨.int8, resolution, vals⟩
    | none => .error .structError
  else if myformat = "8U" then
    match unpackU 1 num_cells (image_binary.take num_cells) with
    | some vals => .ok ⟨.uint8, resolution, vals.map Int.ofNat⟩
    | none => .error .structError
  else
    -- fallback: np.array(bytearray(image_binary)) uses the WHOLE buffer
    match resolution with
    | r0 :: r1 :: _ =>
      if image_binary.length = r0 * r1 * 3 then
        .ok ⟨.uint8, [r0, r1, 3], revAxis2 (r0 * r1) (image_binary.map Int.ofNat)⟩
      else .error .valueError
    | _ => .error .indexError

/-- `ImageUtils.get_image_array(image_binaries, dimensions, resolutions,
formats, n, channel_count)`: index the four parallel series at `n`,
unpack `dimension` little-endian int64 values from
`resolutions[n][0:dimension*8]`, reverse them, and delegate to
`get_image_array_from_row`.  Axis lengths are non-negative in any real
table; a negative unpacked value would make the downstream numpy
shape malformed, modelled as an immediate error. -/
def get_image_array (image_binaries : List Bytes) (dimensions : List Nat)
    (resolutions : List Bytes) (formats : List String) (n : Nat)
    (channel_count : Nat := 1) : Except PyError NdArray :=
  match image_binaries[n]?, dimensions[n]?, resolutions[n]?, formats[n]? with
  | some bin, some dimension, some resBytes, some fmt =>
    match unpackS 8 dimension (resBytes.take (8 * dimension)) with
    | none => .error .structError
    | some vals =>
      if vals.all (fun v => 0 ≤ v) then
        get_image_array_from_row bin dimension (vals.reverse.map Int.toNat)
          fmt channel_count
      else .error .valueError
  | _, _, _, _ => .error .indexError

/-! ## Wide-image codec (`convert_numpy_to_wide` / `convert_wide_to_numpy`) -/

/-- Element dtypes supported by the wide-image codec. -/
inductive WDtype
  | uint8 | float32 | float64
  deriving Repr, DecidableEq

/-- Element byte width of a wide-image dtype. -/
def wWidth : WDtype → Nat
  | .uint8 => 1
  | .float32 => 4
  | .float64 => 8

/-- A 3-dimensional numpy array as handled by the wide-image codec:
shape `(dim0, dim1, channels)`, dtype, and the raw row-major payload
bytes (`numpy_array.tobytes()`). -/
structure NpArray3 where
  dim0 : Nat
  dim1 : Nat
  channels : Nat
  dtype : WDtype
  data : Bytes
  deriving Repr, DecidableEq

/-- The `ImageDataType` code for a `(channel_count, dtype)` pair
(`CV_8UC1 = 0`, `CV_8UC3 = 16`, `CV_32FC1 = 5`, `CV_32FC3 = 21`,
`CV_64FC1 = 6`, `CV_64FC3 = 22`); `none` when the `if/elif` chain of
`convert_numpy_to_wide` assigns nothing (Python `NameError`). -/
def dataTypeCode (channels : Nat) (dt : WDtype) : Option Int :=
  match channels, dt with
  | 1, .uint8 => some 0
  | 3, .uint8 => some 16
  | 1, .float32 => some 5
  | 3, .float32 => some 21
  | 1, .float64 => some 6
  | 3, .float64 => some 22
  | _, _ => none

/-- Inverse direction used by `convert_wide_to_numpy`: number of
channels and numpy dtype of an `ImageDataType` code; `none` for a code
outside the enumeration (Python `NameError`). -/
def codeInfo (code : Int) : Option (Nat × WDtype) :=
  if code = 0 then some (1, .uint8)
  else if code = 16 then some (3, .uint8)
  else if code = 5 then some (1, .float32)
  else if code = 21 then some (3, .float32)
  else if code = 6 then some (1, .float64)
  else if code = 22 then some (3, .float64)
  else none

/-- `ImageUtils.convert_numpy_to_wide(numpy_array)`: destructure the
shape as `(width, height, num_channels)` — so `width` is axis 0 and
`height` is axis 1 — pick the `ImageDataType` code of
`(num_channels, dtype)`, and emit
`np.array([-1, height, width, data_type], dtype=np.int64).tobytes()`
followed by the raw payload bytes. -/
def convert_numpy_to_wide (a : NpArray3) : Option Bytes :=
  match dataTypeCode a.channels a.dtype with
  | none => none
  | some code =>
    some (int64le (-1) ++ int64le (a.dim1 : Int) ++ int64le (a.dim0 : Int) ++
      int64le code ++ a.data)

/-- `ImageUtils.convert_wide_to_numpy(wide_image)`: read `width` from
bytes 8–15, `height` from bytes 16–23 and the dtype code from bytes
24–31 (any buffer shorter than 32 bytes fails on one of these reads),
resolve the code, reinterpret `wide_image[32:]` as elements of the
resolved dtype (`np.frombuffer`, which demands the byte count be a
multiple of the element width) and reshape to
`(height, width, num_channels)`.  numpy rejects negative reshape
dimensions other than `-1`; headers with negative dims are not
exercised here and are modelled as the error case. -/
def convert_wide_to_numpy (wide : Bytes) : Option NpArray3 :=
  if wide.length < 32 then none
  else
    let width := toSigned 8 (leValue ((wide.drop 8).take 8))
    let height := toSigned 8 (leValue ((wide.drop 16).take 8))
    let code := toSigned 8 (leValue ((wide.drop 24).take 8))
    match codeInfo code with
    | none => none
    | some (channels, dt) =>
      let payload := wide.drop 32
      if payload.length % wWidth dt = 0 then
        if 0 ≤ width ∧ 0 ≤ height ∧
            height.toNat * width.toNat * channels = payload.length / wWidth dt then
          some ⟨height.toNat, width.toNat, channels, dt, payload⟩
        else none
      else none

/-! ## Geometry decoder (`BiomedImageTable.fetch_geometry_info`) -/

/-- The slice of a CAS table that `fetch_geometry_info` observes: the
column names of the schema, and the fetched row's cell per column
(byte buffers for the geometry columns, a number for the dimension
column); `none` models a missing column/cell (`KeyError`). -/
structure CASTable where
  columns : List String
  cellBytes : String → Option Bytes
  cellNat : String → Option Nat

/-- `struct.unpack('=%sd' % n, buf[0:n*8])`: `n` float64 values, each
kept as its raw 8-byte group (the codec never interprets them
numerically).  `struct.error` when the buffer is too short. -/
def float64chunks (n : Nat) (bs : Bytes) : Option (List Bytes) :=
  if (bs.take (8 * n)).length = 8 * n then some (chunkN 8 n (bs.take (8 * n)))
  else none

/-- `BiomedImageTable.fetch_geometry_info(n, qry, posCol, oriCol,
spaCol, dimCol)`: first the absence check — the literal default names
`'_position_'`, `'_spacing_'`, `'_orientation_'` must all be columns of
the table, otherwise return `((), (), ())`.  Then the projection
`table[[dimCol, posCol, oriCol, spaCol]]` (KeyError when one of the
caller-supplied names is absent), and the three `struct.unpack` calls
of `dim`, `dim*dim` and `dim` float64 values.  Row selection (`n`,
`qry`) happens outside this core and is abstracted into the table's
single fetched row. -/
def fetch_geometry_info (t : CASTable)
    (posCol : String := "_position_") (oriCol : String := "_orientation_")
    (spaCol : String := "_spacing_") (dimCol : String := "_dimension_") :
    Except PyError (List Bytes × List Bytes × List Bytes) :=
  if ¬ (["_position_", "_spacing_", "_orientation_"] ⊆ t.columns) then
    .ok ([], [], [])
  else if ¬ ([dimCol, posCol, oriCol, spaCol] ⊆ t.columns) then
    .error .keyError
  else
    match t.cellNat dimCol, t.cellBytes posCol, t.cellBytes oriCol,
        t.cellBytes spaCol with
    | some dim, some posB, some oriB, some spaB =>
      match float64chunks dim posB, float64chunks (dim * dim) oriB,
          float64chunks dim spaB with
      | some pos, some ori, some spa => .ok (pos, ori, spa)
      | _, _, _ => .error .structError
    | _, _, _, _ => .error .keyError

/-! ## Supporting lemmas -/

theorem leBytes_length (w v : Nat) : (leBytes w v).length = w := by
  induction w generalizing v with
  | zero => rfl
  | succ w ih => simp [leBytes, ih]

theorem leValue_leBytes (w v : Nat) : leValue (leBytes w v) = v % 256 ^ w := by
  induction w generalizing v with
  | zero => simp [leBytes, leValue, Nat.mod_one]
  | succ w ih =>
    simp only [leBytes, leValue, ih]
    rw [Nat.pow_succ']
    have h1 : v % (256 * 256 ^ w) / 256 = v / 256 % 256 ^ w :=
      Nat.mod_mul_right_div_self v 256 (256 ^ w)
    have h2 : v % (256 * 256 ^ w) % 256 = v % 256 :=
      Nat.mod_mod_of_dvd v ⟨256 ^ w, rfl⟩
    have h3 := Nat.div_add_mod (v % (256 * 256 ^ w)) 256
    omega

theorem int64le_length (v : Int) : (int64le v).length = 8 := leBytes_length _ _

theorem int64le_ofNat (v : Nat) (h : v < 2 ^ 64) :
    int64le (v : Int) = leBytes 8 v := by
  unfold int64le
  rw [Int.emod_eq_of_lt (by exact_mod_cast Nat.zero_le v) (by exact_mod_cast h)]
  simp

theorem toSigned_leValue_leBytes8 (v : Nat) (h : v < 2 ^ 63) :
    toSigned 8 (leValue (leBytes 8 v)) = (v : Int) := by
  rw [leValue_leBytes]
  have hv : v % 256 ^ 8 = v := Nat.mod_eq_of_lt (by
    have : (2 : Nat) ^ 63 < 256 ^ 8 := by norm_num
    omega)
  rw [hv]
  unfold toSigned
  rw [if_pos (by norm_num; omega)]

theorem read_int64le (v : Nat) (h : v < 2 ^ 63) :
    toSigned 8 (leValue (int64le (v : Int))) = (v : Int) := by
  have h64 : v < 2 ^ 64 := by
    have h2 : (2 : Nat) ^ 63 < 2 ^ 64 := by norm_num
    omega
  rw [int64le_ofNat v h64]
  exact toSigned_leValue_leBytes8 v h

theorem chunkN_length (w n : Nat) (bs : Bytes) : (chunkN w n bs).length = n := by
  induction n generalizing bs with
  | zero => rfl
  | succ n ih => simp [chunkN, ih]

theorem dataTypeCode_codeInfo (c : Nat) (dt : WDtype) (k : Int)
    (h : dataTypeCode c dt = some k) : codeInfo k = some (c, dt) := by
  rcases c with _ | _ | _ | _ | c <;> cases dt <;>
    simp_all [dataTypeCode, codeInfo] <;> subst h <;> decide

theorem drop_append8 (b : Bytes) (rest : Bytes) (l : b.length = 8) :
    (b ++ rest).drop 8 = rest := List.drop_left' l

/-- Decoding a buffer assembled from four 8-byte header fields and a
payload whose length matches the header. -/
theorem convert_wide_append (b0 b1 b2 b3 p : Bytes)
    (l0 : b0.length = 8) (l1 : b1.length = 8) (l2 : b2.length = 8)
    (l3 : b3.length = 8) (c : Nat) (dt : WDtype)
    (hcode : codeInfo (toSigned 8 (leValue b3)) = some (c, dt))
    (w h : Nat)
    (hw : toSigned 8 (leValue b1) = (w : Int))
    (hh : toSigned 8 (leValue b2) = (h : Int))
    (hp : p.length = h * w * c * wWidth dt) :
    convert_wide_to_numpy (b0 ++ (b1 ++ (b2 ++ (b3 ++ p)))) = some ⟨h, w, c, dt, p⟩ := by
  have e8 : (b0 ++ (b1 ++ (b2 ++ (b3 ++ p)))).drop 8 = b1 ++ (b2 ++ (b3 ++ p)) :=
    List.drop_left' l0
  have e16 : (b0 ++ (b1 ++ (b2 ++ (b3 ++ p)))).drop 16 = b2 ++ (b3 ++ p) := by
    have h16 : ((b0 ++ (b1 ++ (b2 ++ (b3 ++ p)))).drop 8).drop 8 = b2 ++ (b3 ++ p) := by
      rw [e8]; exact List.drop_left' l1
    rwa [List.drop_drop] at h16
  have e24 : (b0 ++ (b1 ++ (b2 ++ (b3 ++ p)))).drop 24 = b3 ++ p := by
    have h24 : ((b0 ++ (b1 ++ (b2 ++ (b3 ++ p)))).drop 16).drop 8 = b3 ++ p := by
      rw [e16]; exact List.drop_left' l2
    rwa [List.drop_drop] at h24
  have e32 : (b0 ++ (b1 ++ (b2 ++ (b3 ++ p)))).drop 32 = p := by
    have h32 : ((b0 ++ (b1 ++ (b2 ++ (b3 ++ p)))).drop 24).drop 8 = p := by
      rw [e24]; exact List.drop_left' l3
    rwa [List.drop_drop] at h32
  have hlen : (b0 ++ (b1 ++ (b2 ++ (b3 ++ p)))).length = 32 + p.length := by
    simp [l0, l1, l2, l3]; omega
  have hww : 0 < wWidth dt := by cases dt <;> decide
  unfold convert_wide_to_numpy
  rw [if_neg (by omega)]
  simp only [e8, e16, e24, e32, List.take_left' l1, List.take_left' l2,
    List.take_left' l3, hcode, hw, hh]
  rw [if_pos (by rw [hp]; exact Nat.mul_mod_left _ _)]
  rw [if_pos ?_]
  · simp
  · refine ⟨by exact_mod_cast Int.ofNat_nonneg w, by exact_mod_cast Int.ofNat_nonneg h, ?_⟩
    rw [hp, Nat.mul_div_cancel _ hww]
    simp

theorem dataTypeCode_bounds (c : Nat) (dt : WDtype) (k : Int)
    (h : dataTypeCode c dt = some k) : 0 ≤ k ∧ k < 2 ^ 63 := by
  rcases c with _ | _ | _ | _ | c <;> cases dt <;> simp_all [dataTypeCode] <;>
    omega

theorem read_int64le_int (k : Int) (h0 : 0 ≤ k) (h1 : k < 2 ^ 63) :
    toSigned 8 (leValue (int64le k)) = k := by
  obtain ⟨n, rfl⟩ := Int.eq_ofNat_of_zero_le h0
  exact read_int64le n (by exact_mod_cast h1)

/-- C1: for every 3-dimensional array whose `(channel_count, dtype)`
pair is one of the six supported wide-image combinations, decoding the
encoding returns an array bit-for-bit equal to the original: same
shape, same dtype, same element bytes. -/
theorem C1_wide_roundtrip (A : NpArray3)
    (hsup : (dataTypeCode A.channels A.dtype).isSome = true)
    (hlen : A.data.length = A.dim0 * A.dim1 * A.channels * wWidth A.dtype)
    (h0 : A.dim0 < 2 ^ 63) (h1 : A.dim1 < 2 ^ 63) :
    (convert_numpy_to_wide A).bind convert_wide_to_numpy = some A := by
  obtain ⟨d0, d1, c, dt, data⟩ := A
  simp only at hlen h0 h1
  obtain ⟨code, hcode⟩ := Option.isSome_iff_exists.mp hsup
  simp only at hcode
  unfold convert_numpy_to_wide
  simp only [hcode, Option.some_bind, List.append_assoc]
  obtain ⟨hk0, hk1⟩ := dataTypeCode_bounds c dt code hcode
  exact convert_wide_append (int64le (-1)) (int64le (d1 : Int)) (int64le (d0 : Int))
    (int64le code) data (int64le_length _) (int64le_length _) (int64le_length _)
    (int64le_length _) c dt
    (by rw [read_int64le_int code hk0 hk1]; exact dataTypeCode_codeInfo c dt code hcode)
    d1 d0 (read_int64le d1 h1) (read_int64le d0 h0) hlen

/-- Concrete instance of C1 at a `(3, uint8)` array of shape `(2,1,3)`. -/
theorem C1_wide_roundtrip_witness :
    ((dataTypeCode (3 : Nat) WDtype.uint8).isSome = true ∧
      ([10, 20, 30, 40, 50, 60] : Bytes).length = 2 * 1 * 3 * wWidth .uint8 ∧
      2 < 2 ^ 63 ∧ 1 < 2 ^ 63) ∧
    (convert_numpy_to_wide ⟨2, 1, 3, .uint8, [10, 20, 30, 40, 50, 60]⟩).bind
      convert_wide_to_numpy = some ⟨2, 1, 3, .uint8, [10, 20, 30, 40, 50, 60]⟩ :=
  ⟨by decide, C1_wide_roundtrip ⟨2, 1, 3, .uint8, [10, 20, 30, 40, 50, 60]⟩
    (by decide) (by decide) (by decide) (by decide)⟩

/-- C2 refuted: the claim says the int64 at bytes 8–15 of an encoded
wide image is the array's first-axis length (`dim0`).  For the uint8
array of shape `(2, 3, 1)` the bytes 8–15 hold `3` — the second-axis
length — not `2`. -/
theorem C2_header_counterexample :
    (convert_numpy_to_wide ⟨2, 3, 1, .uint8, [0, 1, 2, 3, 4, 5]⟩).map
      (fun buf => leValue ((buf.drop 8).take 8)) = some 3 ∧
    (⟨2, 3, 1, .uint8, [0, 1, 2, 3, 4, 5]⟩ : NpArray3).dim0 = 2 ∧ (3 : Nat) ≠ 2 := by
  decide

theorem codeInfo_bounds (k : Int) (c : Nat) (dt : WDtype)
    (h : codeInfo k = some (c, dt)) : 0 ≤ k ∧ k < 2 ^ 63 := by
  unfold codeInfo at h
  split_ifs at h <;> simp_all

/-- C2 (amended): `convert_numpy_to_wide` emits the four int64 header
values `[-1, dim1, dim0, dtype_code]` — the SECOND-axis length at
bytes 8–15 and the first-axis length at bytes 16–23 — followed by the
raw payload unchanged; and `convert_wide_to_numpy` reads `dim1` from
bytes 8–15, `dim0` from bytes 16–23 and reshapes the payload to
`(dim0, dim1, channel_count)`. -/
theorem C2_wide_layout (A : NpArray3) (code : Int)
    (hcode : dataTypeCode A.channels A.dtype = some code) :
    convert_numpy_to_wide A =
      some (int64le (-1) ++ int64le (A.dim1 : Int) ++ int64le (A.dim0 : Int) ++
        int64le code ++ A.data) ∧
    ∀ (d0 d1 c : Nat) (dt : WDtype) (k : Int) (payload : Bytes),
      codeInfo k = some (c, dt) → d0 < 2 ^ 63 → d1 < 2 ^ 63 →
      payload.length = d0 * d1 * c * wWidth dt →
      convert_wide_to_numpy (int64le (-1) ++ int64le (d1 : Int) ++
        int64le (d0 : Int) ++ int64le k ++ payload) =
        some ⟨d0, d1, c, dt, payload⟩ := by
  constructor
  · simp [convert_numpy_to_wide, hcode]
  · intro d0 d1 c dt k payload hk h0 h1 hp
    obtain ⟨hk0, hk1⟩ := codeInfo_bounds k c dt hk
    simp only [List.append_assoc]
    exact convert_wide_append (int64le (-1)) (int64le (d1 : Int))
      (int64le (d0 : Int)) (int64le k) payload (int64le_length _)
      (int64le_length _) (int64le_length _) (int64le_length _) c dt
      (by rw [read_int64le_int k hk0 hk1]; exact hk)
      d1 d0 (read_int64le d1 h1) (read_int64le d0 h0) hp

/-- Concrete instance of the amended C2 at a uint8 array of shape
`(2, 3, 1)`. -/
theorem C2_wide_layout_witness :
    (dataTypeCode (1 : Nat) WDtype.uint8 = some 0 ∧
      codeInfo 0 = some (1, WDtype.uint8) ∧
      ([0, 1, 2, 3, 4, 5] : Bytes).length = 2 * 3 * 1 * wWidth .uint8) ∧
    convert_numpy_to_wide ⟨2, 3, 1, .uint8, [0, 1, 2, 3, 4, 5]⟩ =
      some (int64le (-1) ++ int64le ((3 : Nat) : Int) ++ int64le ((2 : Nat) : Int) ++
        int64le 0 ++ [0, 1, 2, 3, 4, 5]) ∧
    convert_wide_to_numpy (int64le (-1) ++ int64le ((3 : Nat) : Int) ++
        int64le ((2 : Nat) : Int) ++ int64le 0 ++ [0, 1, 2, 3, 4, 5]) =
      some ⟨2, 3, 1, .uint8, [0, 1, 2, 3, 4, 5]⟩ :=
  ⟨by decide,
    (C2_wide_layout ⟨2, 3, 1, .uint8, [0, 1, 2, 3, 4, 5]⟩ 0 (by decide)).1,
    (C2_wide_layout ⟨2, 3, 1, .uint8, [0, 1, 2, 3, 4, 5]⟩ 0 (by decide)).2
      2 3 1 .uint8 0 [0, 1, 2, 3, 4, 5] (by decide) (by decide) (by decide)
      (by decide)⟩

/-! ## Branch lemmas for `get_image_array_from_row` -/

theorem row_32S (b : Bytes) (d : Nat) (res : List Nat) (cc : Nat) :
    get_image_array_from_row b d res "32S" cc =
      match unpackS 4 res.prod (b.take (4 * res.prod)) with
      | some vals => .ok ⟨.int32, res, vals⟩
      | none => .error .structError := rfl

theorem row_32F (b : Bytes) (d : Nat) (res : List Nat) (cc : Nat) :
    get_image_array_from_row b d res "32F" cc =
      match unpackU 4 res.prod (b.take (4 * res.prod)) with
      | some vals => .ok ⟨.float32, res, vals.map Int.ofNat⟩
      | none => .error .structError := rfl

theorem row_64F (b : Bytes) (d : Nat) (res : List Nat) (cc : Nat) :
    get_image_array_from_row b d res "64F" cc =
      match unpackU 8 res.prod (b.take (8 * res.prod)) with
      | some vals => .ok ⟨.float64, res, vals.map Int.ofNat⟩
      | none => .error .structError := rfl

theorem row_64U (b : Bytes) (d : Nat) (res : List Nat) (cc : Nat) :
    get_image_array_from_row b d res "64U" cc =
      match unpackU 8 res.prod (b.take (8 * res.prod)) with
      | some vals => .ok ⟨.uint64, res, vals.map Int.ofNat⟩
      | none => .error .structError := rfl

theorem row_16S (b : Bytes) (d : Nat) (res : List Nat) (cc : Nat) :
    get_image_array_from_row b d res "16S" cc =
      match unpackS 2 res.prod (b.take (2 * res.prod)) with
      | some vals => .ok ⟨.int16, res, vals⟩
      | none => .error .structError := rfl

theorem row_16U (b : Bytes) (d : Nat) (res : List Nat) (cc : Nat) :
    get_image_array_from_row b d res "16U" cc =
      match unpackU 2 res.prod (b.take (2 * res.prod)) with
      | some vals => .ok ⟨.uint16, res, vals.map Int.ofNat⟩
      | none => .error .structError := rfl

theorem row_8U3 (b : Bytes) (d : Nat) (res : List Nat) :
    get_image_array_from_row b d res "8U" 3 =
      match res with
      | r0 :: r1 :: _ =>
        if (b.take (3 * res.prod)).length = r0 * r1 * 3 then
          .ok ⟨.uint8, [r0, r1, 3],
            revAxis2 (r0 * r1) ((b.take (3 * res.prod)).map Int.ofNat)⟩
        else .error .valueError
      | _ => .error .indexError := rfl

theorem row_8S (b : Bytes) (d : Nat) (res : List Nat) (cc : Nat) :
    get_image_array_from_row b d res "8S" cc =
      match unpackS 1 res.prod (b.take res.prod) with
      | some vals => .ok ⟨.int8, res, vals⟩
      | none => .error .structError := rfl

theorem row_8U1 (b : Bytes) (d : Nat) (res : List Nat) (cc : Nat) (hcc : cc ≠ 3) :
    get_image_array_from_row b d res "8U" cc =
      match unpackU 1 res.prod (b.take res.prod) with
      | some vals => .ok ⟨.uint8, res, vals.map Int.ofNat⟩
      | none => .error .structError := by
  unfold get_image_array_from_row
  rw [if_neg (by decide), if_neg (by decide), if_neg (by decide), if_neg (by decide),
      if_neg (by decide), if_neg (by decide),
      if_neg (fun h => hcc h.2), if_neg (by decide), if_pos rfl]

theorem row_fallback (b : Bytes) (d : Nat) (res : List Nat) (tag : String) (cc : Nat)
    (h1 : tag ≠ "32S") (h2 : tag ≠ "32F") (h3 : tag ≠ "64F") (h4 : tag ≠ "64U")
    (h5 : tag ≠ "16S") (h6 : tag ≠ "16U") (h7 : tag ≠ "8S") (h8 : tag ≠ "8U") :
    get_image_array_from_row b d res tag cc =
      match res with
      | r0 :: r1 :: _ =>
        if b.length = r0 * r1 * 3 then
          .ok ⟨.uint8, [r0, r1, 3], revAxis2 (r0 * r1) (b.map Int.ofNat)⟩
        else .error .valueError
      | _ => .error .indexError := by
  unfold get_image_array_from_row
  rw [if_neg h1, if_neg h2, if_neg h3, if_neg h4, if_neg h5, if_neg h6,
      if_neg (fun h => h8 h.1), if_neg h7, if_neg h8]

theorem revAxis2_getD (n : Nat) (flat : List Int) (t : Nat) (ht : t < 3 * n) :
    (revAxis2 n flat).getD t 0 = flat.getD (3 * (t / 3) + (2 - t % 3)) 0 := by
  unfold revAxis2
  rw [List.getD_eq_getElem?_getD, List.getElem?_map, List.getElem?_range ht]
  rfl

theorem getD_map_take (b : Bytes) (L idx : Nat) (h1 : idx < L) (h2 : L ≤ b.length) :
    ((b.take L).map Int.ofNat).getD idx 0 = Int.ofNat (b.getD idx 0) := by
  have hidx : idx < b.length := lt_of_lt_of_le h1 h2
  have hlt : idx < (b.take L).length := by
    simp only [List.length_take]
    omega
  rw [List.getD_eq_getElem?_getD, List.getElem?_map, List.getElem?_eq_getElem hlt]
  simp [List.getElem_take, List.getD_eq_getElem b 0 hidx,
    List.getElem?_eq_getElem hidx]

/-! ## Claims C9, C5, C3 -/

/-- C9: the output of `get_image_array_from_row` is independent of its
`dimension` argument — for any two dimension values the results are
identical, array or error; the argument is never read nor validated
against the length of `resolution`. -/
theorem C9_dimension_unused (b : Bytes) (res : List Nat) (tag : String)
    (cc d1 d2 : Nat) :
    get_image_array_from_row b d1 res tag cc =
      get_image_array_from_row b d2 res tag cc := rfl

/-- C5: for format `"32S"` and any channel count, the decoder unpacks
`prod(resolution)` consecutive little-endian 4-byte int32 values from
the start of the buffer and reshapes them row-major to `resolution`
with dtype int32. -/
theorem C5_format_32S (b : Bytes) (d cc : Nat) (res : List Nat)
    (hlen : 4 * res.prod ≤ b.length) :
    get_image_array_from_row b d res "32S" cc =
      .ok ⟨.int32, res, (chunkN 4 res.prod (b.take (4 * res.prod))).map
        (fun ch => toSigned 4 (leValue ch))⟩ := by
  rw [row_32S]
  unfold unpackS unpackU
  rw [if_pos (by simp only [List.length_take]; omega)]
  simp [List.map_map]

/-- Concrete instance of C5: the four int32 values `[0,1,2,3]` at
resolution `(2,2)` decode to `[[0,1],[2,3]]` (row-major flat data
`[0,1,2,3]`, shape `[2,2]`, dtype int32). -/
theorem C5_format_32S_witness :
    4 * ([2, 2] : List Nat).prod ≤
      ([0, 0, 0, 0, 1, 0, 0, 0, 2, 0, 0, 0, 3, 0, 0, 0] : Bytes).length ∧
    get_image_array_from_row [0, 0, 0, 0, 1, 0, 0, 0, 2, 0, 0, 0, 3, 0, 0, 0]
      2 [2, 2] "32S" 1 = .ok ⟨.int32, [2, 2], [0, 1, 2, 3]⟩ :=
  ⟨by decide, by
    rw [C5_format_32S _ _ _ _ (by decide)]
    decide⟩

/-- C3: for every format tag outside the recognized set (including the
empty tag) and any channel count, the decoder does not fail with an
unsupported-format error: it interprets the buffer as packed uint8
bytes and returns an array of shape `(res[0], res[1], 3)` with the
channel axis reversed.  (There is no unsupported-format variant in
`PyError` at all: the fallback is universal.) -/
theorem C3_unrecognized_fallback (b : Bytes) (d cc : Nat) (r0 r1 : Nat)
    (rest : List Nat) (tag : String)
    (htag : tag ∉ (["32S", "32F", "64F", "64U", "16S", "16U", "8S", "8U"] :
      List String))
    (hlen : b.length = r0 * r1 * 3) :
    get_image_array_from_row b d (r0 :: r1 :: rest) tag cc =
      .ok ⟨.uint8, [r0, r1, 3], revAxis2 (r0 * r1) (b.map Int.ofNat)⟩ := by
  simp only [List.mem_cons, List.not_mem_nil, or_false, not_or] at htag
  obtain ⟨h1, h2, h3, h4, h5, h6, h7, h8⟩ := htag
  rw [row_fallback b d _ tag cc h1 h2 h3 h4 h5 h6 h7 h8]
  simp [hlen]

/-- Concrete instance of C3 at the empty tag. -/
theorem C3_unrecognized_fallback_witness :
    ("" ∉ (["32S", "32F", "64F", "64U", "16S", "16U", "8S", "8U"] : List String) ∧
      ([1, 2, 3, 4, 5, 6, 7, 8, 9, 10, 11, 12] : Bytes).length = 2 * 2 * 3) ∧
    get_image_array_from_row [1, 2, 3, 4, 5, 6, 7, 8, 9, 10, 11, 12]
      2 [2, 2] "" 7 =
      .ok ⟨.uint8, [2, 2, 3], [3, 2, 1, 6, 5, 4, 9, 8, 7, 12, 11, 10]⟩ :=
  ⟨by decide, by
    rw [C3_unrecognized_fallback _ _ _ _ _ _ _ (by decide) (by decide)]
    decide⟩

theorem revAxis2_elem (b : Bytes) (N A k : Nat) (hA : A < N) (hk : k < 3)
    (hlen : 3 * N ≤ b.length) :
    (revAxis2 N ((b.take (3 * N)).map Int.ofNat)).getD (A * 3 + k) 0 =
      Int.ofNat (b.getD (A * 3 + (2 - k)) 0) := by
  have ht : A * 3 + k < 3 * N := by omega
  rw [revAxis2_getD N _ _ ht]
  have hdiv : (A * 3 + k) / 3 = A := by omega
  have hmod : (A * 3 + k) % 3 = k := by omega
  rw [hdiv, hmod, Nat.mul_comm 3 A]
  exact getD_map_take b (3 * N) (A * 3 + (2 - k)) (by omega) hlen

theorem mul_index_lt (i j r0 r1 : Nat) (hi : i < r0) (hj : j < r1) :
    i * r1 + j < r0 * r1 := by
  have h1 : i * r1 + j < (i + 1) * r1 := by
    rw [add_mul, one_mul]
    exact Nat.add_lt_add_left hj _
  have h2 : (i + 1) * r1 ≤ r0 * r1 :=
    Nat.mul_le_mul_right _ (Nat.succ_le_of_lt hi)
  exact lt_of_lt_of_le h1 h2

/-- C4: for format `"8U"` with channel count 3, the decoder reads
exactly `res[0]*res[1]*3` bytes from the start of the buffer, reshapes
them to `(res[0], res[1], 3)` and reverses the channel axis, so that
`output[i][j][k]` is the stored byte at offset `(i*res[1]+j)*3 + (2-k)`;
and the unrecognized-format fallback applies the same
read-reshape-reverse transform (when the buffer holds exactly the
bytes read, since the fallback consumes the whole buffer). -/
theorem C4_8U3_transform (b : Bytes) (d r0 r1 : Nat)
    (hlen : 3 * (r0 * r1) ≤ b.length) :
    (get_image_array_from_row b d [r0, r1] "8U" 3 =
      .ok ⟨.uint8, [r0, r1, 3],
        revAxis2 (r0 * r1) ((b.take (3 * (r0 * r1))).map Int.ofNat)⟩) ∧
    (∀ i j k : Nat, i < r0 → j < r1 → k < 3 →
      (revAxis2 (r0 * r1) ((b.take (3 * (r0 * r1))).map Int.ofNat)).getD
          ((i * r1 + j) * 3 + k) 0 =
        Int.ofNat (b.getD ((i * r1 + j) * 3 + (2 - k)) 0)) ∧
    (∀ (tag : String) (cc : Nat),
      tag ∉ (["32S", "32F", "64F", "64U", "16S", "16U", "8S", "8U"] :
        List String) →
      b.length = 3 * (r0 * r1) →
      get_image_array_from_row b d [r0, r1] tag cc =
        get_image_array_from_row b d [r0, r1] "8U" 3) := by
  have hp : ([r0, r1] : List Nat).prod = r0 * r1 := by simp
  have htake : (b.take (3 * (r0 * r1))).length = 3 * (r0 * r1) := by
    rw [List.length_take]
    exact min_eq_left hlen
  have eq8U3 : get_image_array_from_row b d [r0, r1] "8U" 3 =
      .ok ⟨.uint8, [r0, r1, 3],
        revAxis2 (r0 * r1) ((b.take (3 * (r0 * r1))).map Int.ofNat)⟩ := by
    rw [row_8U3]
    simp only [hp]
    rw [if_pos (by rw [htake]; ring)]
  refine ⟨eq8U3, ?_, ?_⟩
  · intro i j k hi hj hk
    exact revAxis2_elem b (r0 * r1) (i * r1 + j) k
      (mul_index_lt i j r0 r1 hi hj) hk hlen
  · intro tag cc htag hblen
    simp only [List.mem_cons, List.not_mem_nil, or_false, not_or] at htag
    obtain ⟨h1, h2, h3, h4, h5, h6, h7, h8⟩ := htag
    rw [row_fallback b d _ tag cc h1 h2 h3 h4 h5 h6 h7 h8, eq8U3]
    have hball : b.take (3 * (r0 * r1)) = b :=
      List.take_of_length_le (le_of_eq hblen)
    dsimp only
    rw [if_pos (by rw [hblen]; ring), hball]

/-- Concrete instance of C4 at a 2×2 buffer of interleaved byte
triples: the decoded last axis is the exact reverse of the stored byte
order per pixel, and the fallback decodes identically. -/
theorem C4_8U3_transform_witness :
    3 * (2 * 2) ≤ ([1, 2, 3, 4, 5, 6, 7, 8, 9, 10, 11, 12] : Bytes).length ∧
    get_image_array_from_row [1, 2, 3, 4, 5, 6, 7, 8, 9, 10, 11, 12]
      9 [2, 2] "8U" 3 =
      .ok ⟨.uint8, [2, 2, 3], [3, 2, 1, 6, 5, 4, 9, 8, 7, 12, 11, 10]⟩ ∧
    get_image_array_from_row [1, 2, 3, 4, 5, 6, 7, 8, 9, 10, 11, 12]
      9 [2, 2] "QQ" 5 =
      get_image_array_from_row [1, 2, 3, 4, 5, 6, 7, 8, 9, 10, 11, 12]
        9 [2, 2] "8U" 3 :=
  ⟨by decide,
    by
      rw [(C4_8U3_transform [1, 2, 3, 4, 5, 6, 7, 8, 9, 10, 11, 12]
        9 2 2 (by decide)).1]
      decide,
    (C4_8U3_transform [1, 2, 3, 4, 5, 6, 7, 8, 9, 10, 11, 12]
      9 2 2 (by decide)).2.2 "QQ" 5 (by decide) (by decide)⟩

/-- C7 refuted: with format `"8U"`, channel count 3 and resolution
`[2,2,2]`, the required byte count is `prod(res)*1*3 = 24`, yet a
12-byte buffer is NOT rejected: the slice `[0:24]` silently truncates
to the 12 available bytes, which happen to fill the `(2,2,3)` reshape,
so the decoder returns an array built from a truncated read. -/
theorem C7_underrun_counterexample :
    (List.replicate 12 7 : Bytes).length < ([2, 2, 2] : List Nat).prod * 1 * 3 ∧
    get_image_array_from_row (List.replicate 12 7) 3 [2, 2, 2] "8U" 3 =
      .ok ⟨.uint8, [2, 2, 3], List.replicate 12 7⟩ := by decide

/-- The format tags recognized by the dispatch chain. -/
def recognizedTags : List String :=
  ["32S", "32F", "64F", "64U", "16S", "16U", "8S", "8U"]

/-- Element byte width of a recognized format tag. -/
def tagWidth (tag : String) : Nat :=
  if tag = "32S" ∨ tag = "32F" then 4
  else if tag = "64F" ∨ tag = "64U" then 8
  else if tag = "16S" ∨ tag = "16U" then 2
  else 1

/-- Bytes demanded by the claim: `prod(resolution)` times the element
width, times 3 for the 3-channel case. -/
def requiredBytes (tag : String) (cc : Nat) (res : List Nat) : Nat :=
  res.prod * tagWidth tag * (if tag = "8U" ∧ cc = 3 then 3 else 1)

theorem unpackU_take_some (w n : Nat) (b : Bytes) (m : Nat) (hm : m = w * n)
    (h : w * n ≤ b.length) : unpackU w n (b.take m) =
      some ((chunkN w n (b.take m)).map leValue) := by
  unfold unpackU
  rw [if_pos (by rw [hm, List.length_take]; omega)]

theorem unpackU_take_none (w n : Nat) (b : Bytes) (m : Nat) (hm : m = w * n)
    (h : b.length < w * n) : unpackU w n (b.take m) = none := by
  unfold unpackU
  rw [if_neg (by rw [hm, List.length_take]; omega)]

theorem unpackS_take_some (w n : Nat) (b : Bytes) (m : Nat) (hm : m = w * n)
    (h : w * n ≤ b.length) : unpackS w n (b.take m) =
      some (((chunkN w n (b.take m)).map leValue).map (toSigned w)) := by
  unfold unpackS
  rw [unpackU_take_some w n b m hm h]
  rfl

theorem unpackS_take_none (w n : Nat) (b : Bytes) (m : Nat) (hm : m = w * n)
    (h : b.length < w * n) : unpackS w n (b.take m) = none := by
  unfold unpackS
  rw [unpackU_take_none w n b m hm h]
  rfl

/-- C7 (amended): for every recognized format tag, if the buffer holds
fewer bytes than `prod(resolution)` times the element width (times 3
for the 3-channel case) the decoder raises an error, and with at least
the required bytes it succeeds ignoring surplus trailing bytes —
PROVIDED that in the 3-channel case (`"8U"` with channel count 3) the
resolution has at least two axes and `prod(resolution) = res[0]*res[1]`
(e.g. any two-axis resolution).  Without that proviso the 3-channel
path both accepts truncated buffers and rejects sufficient ones, as the
counterexample shows. -/
theorem C7_underrun_dichotomy (b : Bytes) (d cc : Nat) (res : List Nat) (tag : String)
    (htag : tag ∈ recognizedTags)
    (h3 : tag = "8U" → cc = 3 →
      ∃ r0 r1 rest, res = r0 :: r1 :: rest ∧ res.prod = r0 * r1) :
    (b.length < requiredBytes tag cc res →
      ∃ e, get_image_array_from_row b d res tag cc = .error e) ∧
    (requiredBytes tag cc res ≤ b.length →
      ∃ a, get_image_array_from_row b d res tag cc = .ok a) := by
  simp only [recognizedTags, List.mem_cons, List.not_mem_nil, or_false] at htag
  rcases htag with rfl | rfl | rfl | rfl | rfl | rfl | rfl | rfl
  · -- 32S
    have hreq : requiredBytes "32S" cc res = res.prod * 4 := by
      simp [requiredBytes, tagWidth]
    rw [hreq]
    constructor
    · intro hb
      exact ⟨.structError, by
        rw [row_32S, unpackS_take_none 4 res.prod b _ rfl (by omega)]⟩
    · intro hb
      exact ⟨_, by rw [row_32S, unpackS_take_some 4 res.prod b _ rfl (by omega)]⟩
  · -- 32F
    have hreq : requiredBytes "32F" cc res = res.prod * 4 := by
      simp [requiredBytes, tagWidth]
    rw [hreq]
    constructor
    · intro hb
      exact ⟨.structError, by
        rw [row_32F, unpackU_take_none 4 res.prod b _ rfl (by omega)]⟩
    · intro hb
      exact ⟨_, by rw [row_32F, unpackU_take_some 4 res.prod b _ rfl (by omega)]⟩
  · -- 64F
    have hreq : requiredBytes "64F" cc res = res.prod * 8 := by
      simp [requiredBytes, tagWidth]
    rw [hreq]
    constructor
    · intro hb
      exact ⟨.structError, by
        rw [row_64F, unpackU_take_none 8 res.prod b _ rfl (by omega)]⟩
    · intro hb
      exact ⟨_, by rw [row_64F, unpackU_take_some 8 res.prod b _ rfl (by omega)]⟩
  · -- 64U
    have hreq : requiredBytes "64U" cc res = res.prod * 8 := by
      simp [requiredBytes, tagWidth]
    rw [hreq]
    constructor
    · intro hb
      exact ⟨.structError, by
        rw [row_64U, unpackU_take_none 8 res.prod b _ rfl (by omega)]⟩
    · intro hb
      exact ⟨_, by rw [row_64U, unpackU_take_some 8 res.prod b _ rfl (by omega)]⟩
  · -- 16S
    have hreq : requiredBytes "16S" cc res = res.prod * 2 := by
      simp [requiredBytes, tagWidth]
    rw [hreq]
    constructor
    · intro hb
      exact ⟨.structError, by
        rw [row_16S, unpackS_take_none 2 res.prod b _ rfl (by omega)]⟩
    · intro hb
      exact ⟨_, by rw [row_16S, unpackS_take_some 2 res.prod b _ rfl (by omega)]⟩
  · -- 16U
    have hreq : requiredBytes "16U" cc res = res.prod * 2 := by
      simp [requiredBytes, tagWidth]
    rw [hreq]
    constructor
    · intro hb
      exact ⟨.structError, by
        rw [row_16U, unpackU_take_none 2 res.prod b _ rfl (by omega)]⟩
    · intro hb
      exact ⟨_, by rw [row_16U, unpackU_take_some 2 res.prod b _ rfl (by omega)]⟩
  · -- 8S
    have hreq : requiredBytes "8S" cc res = res.prod := by
      simp [requiredBytes, tagWidth]
    rw [hreq]
    constructor
    · intro hb
      exact ⟨.structError, by
        rw [row_8S, unpackS_take_none 1 res.prod b _ (one_mul _).symm (by omega)]⟩
    · intro hb
      exact ⟨_, by
        rw [row_8S, unpackS_take_some 1 res.prod b _ (one_mul _).symm (by omega)]⟩
  · -- 8U
    by_cases hcc : cc = 3
    · subst hcc
      obtain ⟨r0, r1, rest, rfl, hprod⟩ := h3 rfl rfl
      have hreq : requiredBytes "8U" 3 (r0 :: r1 :: rest) = r0 * r1 * 3 := by
        simp [requiredBytes, tagWidth, hprod]
      rw [hreq]
      constructor
      · intro hb
        have hcond : ¬ ((b.take (3 * (r0 :: r1 :: rest).prod)).length =
            r0 * r1 * 3) := by
          rw [List.length_take, hprod]
          set N := r0 * r1 with hN
          omega
        exact ⟨.valueError, by rw [row_8U3]; dsimp only; rw [if_neg hcond]⟩
      · intro hb
        have hcond : (b.take (3 * (r0 :: r1 :: rest).prod)).length =
            r0 * r1 * 3 := by
          rw [List.length_take, hprod]
          set N := r0 * r1 with hN
          omega
        exact ⟨⟨.uint8, [r0, r1, 3],
          revAxis2 (r0 * r1) ((b.take (3 * (r0 :: r1 :: rest).prod)).map Int.ofNat)⟩,
          by rw [row_8U3]; dsimp only; rw [if_pos hcond]⟩
    · have hreq : requiredBytes "8U" cc res = res.prod := by
        simp [requiredBytes, tagWidth, hcc]
      rw [hreq]
      constructor
      · intro hb
        exact ⟨.structError, by
          rw [row_8U1 b d res cc hcc,
            unpackU_take_none 1 res.prod b _ (one_mul _).symm (by omega)]⟩
      · intro hb
        exact ⟨_, by
          rw [row_8U1 b d res cc hcc,
            unpackU_take_some 1 res.prod b _ (one_mul _).symm (by omega)]⟩

/-- Concrete instances of the amended C7 for `"32S"` at resolution
`(2,2)`: a 10-byte buffer (required 16) errors; a 16-byte buffer
succeeds. -/
theorem C7_underrun_dichotomy_witness :
    ((List.replicate 10 0 : Bytes).length < requiredBytes "32S" 1 [2, 2] ∧
      (∃ e, get_image_array_from_row (List.replicate 10 0) 2 [2, 2] "32S" 1 =
        .error e)) ∧
    (requiredBytes "32S" 1 [2, 2] ≤ (List.replicate 16 0 : Bytes).length ∧
      (∃ a, get_image_array_from_row (List.replicate 16 0) 2 [2, 2] "32S" 1 =
        .ok a)) :=
  ⟨⟨by decide,
    (C7_underrun_dichotomy (List.replicate 10 0) 2 1 [2, 2] "32S" (by decide)
      (fun h => absurd h (by decide))).1 (by decide)⟩,
   ⟨by decide,
    (C7_underrun_dichotomy (List.replicate 16 0) 2 1 [2, 2] "32S" (by decide)
      (fun h => absurd h (by decide))).2 (by decide)⟩⟩

/-- C6: `get_image_array` unpacks `dimension = dimensions[n]`
consecutive little-endian int64 values from the first `dimension*8`
bytes of `resolutions[n]`, reverses their order, and hands the result
to the row decoder as the resolution. -/
theorem C6_resolution_unpack (bins : List Bytes) (dims : List Nat)
    (ress : List Bytes) (fmts : List String) (n cc : Nat)
    (bin : Bytes) (dimension : Nat) (resB : Bytes) (fmt : String)
    (hb : bins[n]? = some bin) (hd : dims[n]? = some dimension)
    (hr : ress[n]? = some resB) (hf : fmts[n]? = some fmt)
    (vals : List Int)
    (hu : unpackS 8 dimension (resB.take (8 * dimension)) = some vals)
    (hpos : vals.all (fun v => 0 ≤ v)) :
    get_image_array bins dims ress fmts n cc =
      get_image_array_from_row bin dimension (vals.reverse.map Int.toNat)
        fmt cc := by
  unfold get_image_array
  rw [hb, hd, hr, hf]
  dsimp only
  rw [hu]
  dsimp only
  rw [if_pos hpos]

/-- Concrete instance of C6: a packed int64 pair `(5,5)` with
dimension 2 yields a decoded array of shape `(5,5)`. -/
theorem C6_resolution_unpack_witness :
    (([leBytes 8 5 ++ leBytes 8 5] : List Bytes)[0]? =
        some (leBytes 8 5 ++ leBytes 8 5) ∧
      unpackS 8 2 ((leBytes 8 5 ++ leBytes 8 5).take (8 * 2)) =
        some [5, 5] ∧
      ([5, 5] : List Int).all (fun v => 0 ≤ v)) ∧
    get_image_array [List.replicate 25 0] [2] [leBytes 8 5 ++ leBytes 8 5]
      ["8U"] 0 1 = .ok ⟨.uint8, [5, 5], List.replicate 25 0⟩ :=
  ⟨by decide, by
    rw [C6_resolution_unpack [List.replicate 25 0] [2]
      [leBytes 8 5 ++ leBytes 8 5] ["8U"] 0 1 (List.replicate 25 0) 2
      (leBytes 8 5 ++ leBytes 8 5) "8U" (by decide) (by decide) (by decide)
      (by decide) [5, 5] (by decide) (by decide)]
    decide⟩

theorem float64chunks_some (n : Nat) (bs : Bytes) (h : 8 * n ≤ bs.length) :
    float64chunks n bs = some (chunkN 8 n (bs.take (8 * n))) := by
  unfold float64chunks
  rw [if_pos (by rw [List.length_take]; omega)]

/-- C8: `fetch_geometry_info` returns the triple `(position,
orientation, spacing)` where `position` is `dim` float64 values (8-byte
groups) from the first `dim*8` bytes of the position buffer,
`orientation` is `dim*dim` values from the first `dim*dim*8` bytes of
the orientation buffer, `spacing` is `dim` values from the first
`dim*8` bytes of the spacing buffer; and when the geometry columns are
entirely absent from the schema it returns `((), (), ())` instead of
failing. -/
theorem C8_geometry_decode (t : CASTable) (pc oc sc dc : String)
    (dim : Nat) (pB oB sB : Bytes) :
    ((∀ c ∈ (["_position_", "_spacing_", "_orientation_"] : List String),
        c ∉ t.columns) →
      fetch_geometry_info t pc oc sc dc = .ok ([], [], [])) ∧
    ((["_position_", "_spacing_", "_orientation_"] : List String) ⊆
        t.columns →
      ([dc, pc, oc, sc] : List String) ⊆ t.columns →
      t.cellNat dc = some dim → t.cellBytes pc = some pB →
      t.cellBytes oc = some oB → t.cellBytes sc = some sB →
      8 * dim ≤ pB.length → 8 * (dim * dim) ≤ oB.length →
      8 * dim ≤ sB.length →
      fetch_geometry_info t pc oc sc dc =
        .ok (chunkN 8 dim (pB.take (8 * dim)),
          chunkN 8 (dim * dim) (oB.take (8 * (dim * dim))),
          chunkN 8 dim (sB.take (8 * dim)))) := by
  constructor
  · intro habs
    unfold fetch_geometry_info
    rw [if_pos ?_]
    intro hsub
    exact habs "_position_" (by simp) (hsub (by simp))
  · intro hsub hsub2 hdc hpc hoc hsc hlp hlo hls
    unfold fetch_geometry_info
    rw [if_neg (not_not_intro hsub), if_neg (not_not_intro hsub2),
      hdc, hpc, hoc, hsc]
    dsimp only
    rw [float64chunks_some dim pB hlp, float64chunks_some (dim * dim) oB hlo,
      float64chunks_some dim sB hls]

def geoAbsentTable : CASTable :=
  ⟨["_id_", "_image_"], fun _ => none, fun _ => none⟩

def geoPresentTable : CASTable :=
  ⟨["_position_", "_spacing_", "_orientation_", "_dimension_"],
    fun c =>
      if c = "_position_" then some [1, 2, 3, 4, 5, 6, 7, 8]
      else if c = "_orientation_" then some [9, 10, 11, 12, 13, 14, 15, 16]
      else if c = "_spacing_" then some [17, 18, 19, 20, 21, 22, 23, 24]
      else none,
    fun c => if c = "_dimension_" then some 1 else none⟩

/-- Concrete instances of C8: a table with no geometry columns yields
`((), (), ())`; a table with the default columns and dimension 1 yields
the three unpacked 8-byte groups. -/
theorem C8_geometry_decode_witness :
    fetch_geometry_info geoAbsentTable "_position_" "_orientation_"
      "_spacing_" "_dimension_" = .ok ([], [], []) ∧
    fetch_geometry_info geoPresentTable "_position_" "_orientation_"
      "_spacing_" "_dimension_" =
      .ok ([[1, 2, 3, 4, 5, 6, 7, 8]], [[9, 10, 11, 12, 13, 14, 15, 16]],
        [[17, 18, 19, 20, 21, 22, 23, 24]]) :=
  ⟨(C8_geometry_decode geoAbsentTable "_position_" "_orientation_"
      "_spacing_" "_dimension_" 0 [] [] []).1 (by decide),
    by
      rw [(C8_geometry_decode geoPresentTable "_position_" "_orientation_"
        "_spacing_" "_dimension_" 1 [1, 2, 3, 4, 5, 6, 7, 8]
        [9, 10, 11, 12, 13, 14, 15, 16] [17, 18, 19, 20, 21, 22, 23, 24]).2
        (by decide) (by decide) (by decide) (by decide) (by decide)
        (by decide) (by decide) (by decide) (by decide)]
      decide⟩

def customColsTable : CASTable :=
  ⟨["_position_", "_spacing_", "_orientation_", "p", "o", "s", "d"],
    fun c => if c = "p" ∨ c = "o" ∨ c = "s" then some [] else none,
    fun c => if c = "d" then some 0 else none⟩

/-- C10 refuted on its "exactly when" direction: `customColsTable` has
all three default-named geometry columns present, and the call with
custom columns `p`, `o`, `s`, `d` still returns `((), (), ())` —
because the stored dimension is 0, so zero float64 values are
unpacked.  The early return is therefore not the only source of the
empty triple. -/
theorem C10_default_check_counterexample :
    fetch_geometry_info customColsTable "p" "o" "s" "d" = .ok ([], [], []) ∧
    "_position_" ∈ customColsTable.columns ∧
    "_spacing_" ∈ customColsTable.columns ∧
    "_orientation_" ∈ customColsTable.columns := by decide

/-- C10 (amended): the absence check of `fetch_geometry_info` tests the
literal default column names, not the caller-supplied ones: it takes
the `((), (), ())` early return exactly when one of the three
default-named columns is missing, even if the caller-supplied columns
are all present; when the default-named columns all exist it proceeds
to unpack the caller-supplied columns, which yields `((), (), ())`
only in the degenerate case of a stored dimension of 0 (and nonempty
tuples whenever the dimension is positive). -/
theorem C10_default_check (t : CASTable) (pc oc sc dc : String)
    (dim : Nat) (pB oB sB : Bytes) :
    (¬ ((["_position_", "_spacing_", "_orientation_"] : List String) ⊆
        t.columns) →
      pc ∈ t.columns → oc ∈ t.columns → sc ∈ t.columns → dc ∈ t.columns →
      fetch_geometry_info t pc oc sc dc = .ok ([], [], [])) ∧
    ((["_position_", "_spacing_", "_orientation_"] : List String) ⊆
        t.columns →
      ([dc, pc, oc, sc] : List String) ⊆ t.columns →
      t.cellNat dc = some dim → t.cellBytes pc = some pB →
      t.cellBytes oc = some oB → t.cellBytes sc = some sB →
      8 * dim ≤ pB.length → 8 * (dim * dim) ≤ oB.length →
      8 * dim ≤ sB.length →
      fetch_geometry_info t pc oc sc dc =
        .ok (chunkN 8 dim (pB.take (8 * dim)),
          chunkN 8 (dim * dim) (oB.take (8 * (dim * dim))),
          chunkN 8 dim (sB.take (8 * dim))) ∧
      (0 < dim → fetch_geometry_info t pc oc sc dc ≠ .ok ([], [], []))) := by
  constructor
  · intro hmiss _ _ _ _
    unfold fetch_geometry_info
    rw [if_pos hmiss]
  · intro hsub hsub2 hdc hpc hoc hsc hlp hlo hls
    have hfetch : fetch_geometry_info t pc oc sc dc =
        .ok (chunkN 8 dim (pB.take (8 * dim)),
          chunkN 8 (dim * dim) (oB.take (8 * (dim * dim))),
          chunkN 8 dim (sB.take (8 * dim))) := by
      unfold fetch_geometry_info
      rw [if_neg (not_not_intro hsub), if_neg (not_not_intro hsub2),
        hdc, hpc, hoc, hsc]
      dsimp only
      rw [float64chunks_some dim pB hlp,
        float64chunks_some (dim * dim) oB hlo, float64chunks_some dim sB hls]
    refine ⟨hfetch, ?_⟩
    intro hdim heq
    rw [hfetch] at heq
    have hchunks : chunkN 8 dim (pB.take (8 * dim)) = [] := by
      have h' := Except.ok.inj heq
      exact congrArg Prod.fst h'
    have hlist := chunkN_length 8 dim (pB.take (8 * dim))
    rw [hchunks] at hlist
    simp at hlist
    omega

def defaultsMissingTable : CASTable :=
  ⟨["p", "o", "s", "d"],
    fun c => if c = "p" ∨ c = "o" ∨ c = "s" then some [1, 2, 3, 4, 5, 6, 7, 8]
      else none,
    fun c => if c = "d" then some 1 else none⟩

def defaultsPresentTable : CASTable :=
  ⟨["_position_", "_spacing_", "_orientation_", "p", "o", "s", "d"],
    fun c => if c = "p" ∨ c = "o" ∨ c = "s" then some [1, 2, 3, 4, 5, 6, 7, 8]
      else none,
    fun c => if c = "d" then some 1 else none⟩

/-- Concrete instances of the amended C10: with the default-named
columns missing the call returns `((), (), ())` although the custom
columns are all present and populated; with the default-named columns
present the same custom columns are unpacked and the result is not the
empty triple. -/
theorem C10_default_check_witness :
    fetch_geometry_info defaultsMissingTable "p" "o" "s" "d" =
      .ok ([], [], []) ∧
    fetch_geometry_info defaultsPresentTable "p" "o" "s" "d" =
      .ok ([[1, 2, 3, 4, 5, 6, 7, 8]], [[1, 2, 3, 4, 5, 6, 7, 8]],
        [[1, 2, 3, 4, 5, 6, 7, 8]]) ∧
    fetch_geometry_info defaultsPresentTable "p" "o" "s" "d" ≠
      .ok ([], [], []) :=
  ⟨(C10_default_check defaultsMissingTable "p" "o" "s" "d" 1
      [1, 2, 3, 4, 5, 6, 7, 8] [1, 2, 3, 4, 5, 6, 7, 8]
      [1, 2, 3, 4, 5, 6, 7, 8]).1 (by decide) (by decide) (by decide)
      (by decide) (by decide),
    by
      rw [((C10_default_check defaultsPresentTable "p" "o" "s" "d" 1
        [1, 2, 3, 4, 5, 6, 7, 8] [1, 2, 3, 4, 5, 6, 7, 8]
        [1, 2, 3, 4, 5, 6, 7, 8]).2 (by decide) (by decide) (by decide)
        (by decide) (by decide) (by decide) (by decide) (by decide)
        (by decide)).1]
      decide,
    ((C10_default_check defaultsPresentTable "p" "o" "s" "d" 1
      [1, 2, 3, 4, 5, 6, 7, 8] [1, 2, 3, 4, 5, 6, 7, 8]
      [1, 2, 3, 4, 5, 6, 7, 8]).2 (by decide) (by decide) (by decide)
      (by decide) (by decide) (by decide) (by decide) (by decide)
      (by decide)).2 (by decide)⟩

end Cvpy
